import Mathlib

/-
Shallow embedding of the loggingtalk repository (src/loggingtalk/logging.py and
src/loggingtalk/subprocess.py) for verifying the specification claims.

Modelling conventions:
- Python strings are Lean `String`s; where character-level reasoning is needed we
  work with `String.data` (the list of characters).
- The ContextVar `_current_prefix` is modelled as an `Option String` (none = unset;
  `ContextVar.get("")` is `Option.getD ctx ""`).
- `with log_prefix(t): body` is modelled by a small instruction machine: `enter t`
  pushes the old value of the context variable (the token returned by
  `ContextVar.set`) and installs `old ++ t`; `leave` is the `finally:` block's
  `ContextVar.reset(token)`, which pops and restores the saved value.  Exceptions
  are modelled by a `raised` flag: while an exception is propagating, ordinary
  instructions are skipped but `leave` instructions of scopes that were entered
  still run (Python's `finally`).  The `skip` counter tracks scopes whose body was
  never entered because an exception was already propagating, so that their
  `leave` does not pop a foreign token.
- Python `%`-formatting is modelled for the `%s`, `%%` and `%(name)s` specifiers,
  which are the only ones the repository's own log calls use; any other specifier
  is an error on both sides (Python raises for a mismatched specifier as well).
  A raising Python expression is an `Except.error`.
- `bytes` are `List Nat`; `bytes.decode(errors="replace")` is modelled for the
  ASCII range (each byte below 128 is its character, anything else the
  replacement character); no claim depends on multi-byte decoding.
- asyncio's cooperative scheduling is modelled by explicit interleaving
  schedules (`List Bool`); each concurrently running task owns its own copy of
  the context-variable state, which is how `contextvars` + `asyncio` behave
  (every task runs in a copy of the creating context).
-/

namespace LoggingTalk

/-! ## Context-local prefix machine (logging.py, `_current_prefix` / `log_prefix`) -/

/-- Machine instructions for the scoped-region semantics of `log_prefix`. -/
inductive Instr where
  | obs
  | enter (t : String)
  | leave
  | fail
deriving DecidableEq, Repr

/-- Structured programs: observation points, failure, sequencing and
`with log_prefix(t):` scopes. -/
inductive Prog where
  | skip
  | obs
  | fail
  | seq (p q : Prog)
  | scope (t : String) (body : Prog)
deriving DecidableEq, Repr

/-- Compile a structured program to the flat instruction list the machine runs. -/
def compile : Prog → List Instr
  | .skip => []
  | .obs => [.obs]
  | .fail => [.fail]
  | .seq p q => compile p ++ compile q
  | .scope t body => .enter t :: (compile body ++ [.leave])

/-- The machine state: the ContextVar value, the stack of saved tokens, whether
an exception is propagating, and how many unentered scopes are being skipped. -/
structure MachState where
  ctx : Option String
  saved : List (Option String)
  raised : Bool
  skipd : Nat
deriving DecidableEq, Repr

/-- One instruction step.  `enter t` is `token = _current_prefix.set(existing + t)`
(with `existing = _current_prefix.get("")`); `leave` is
`_current_prefix.reset(token)` in the `finally:` block, which runs even while an
exception propagates; `obs` observes the current value (a log record reading the
active prefix). -/
def execInstr : Instr → MachState → Option String × MachState
  | .obs, st => if st.raised then (none, st) else (some (st.ctx.getD ""), st)
  | .fail, st => if st.raised then (none, st) else (none, { st with raised := true })
  | .enter t, st =>
      if st.raised then (none, { st with skipd := st.skipd + 1 })
      else (none, ⟨some (st.ctx.getD "" ++ t), st.ctx :: st.saved, false, st.skipd⟩)
  | .leave, st =>
      if st.raised && st.skipd != 0 then (none, { st with skipd := st.skipd - 1 })
      else
        match st.saved with
        | [] => (none, st)
        | sv :: rest => (none, ⟨sv, rest, st.raised, st.skipd⟩)

/-- Run a list of instructions to completion, collecting observations. -/
def runInstrs : List Instr → MachState → List String × MachState
  | [], st => ([], st)
  | i :: rest, st =>
      ((execInstr i st).1.toList ++ (runInstrs rest (execInstr i st).2).1,
       (runInstrs rest (execInstr i st).2).2)

/-- Big-step reference semantics: observations and whether an exception
propagates out, given the active context value. -/
def execProg : Prog → Option String → List String × Bool
  | .skip, _ => ([], false)
  | .obs, ctx => ([ctx.getD ""], false)
  | .fail, _ => ([], true)
  | .seq p q, ctx =>
      if (execProg p ctx).2 then execProg p ctx
      else ((execProg p ctx).1 ++ (execProg q ctx).1, (execProg q ctx).2)
  | .scope t body, ctx => execProg body (some (ctx.getD "" ++ t))

/-- A cooperatively scheduled task: remaining instructions plus its own copy of
the context-variable state (asyncio tasks each run in a copy of the context). -/
structure TaskCfg where
  instrs : List Instr
  st : MachState
deriving DecidableEq, Repr

/-- One scheduler step of a task (no-op once the task is done). -/
def stepCfg : TaskCfg → Option String × TaskCfg
  | ⟨[], st⟩ => (none, ⟨[], st⟩)
  | ⟨i :: rest, st⟩ => ((execInstr i st).1, ⟨rest, (execInstr i st).2⟩)

/-- Run two tasks under an explicit interleaving schedule (`true` = step task 1),
tagging each observation with the task that made it. -/
def interleave : List Bool → TaskCfg → TaskCfg → List (Bool × String)
  | [], _, _ => []
  | b :: rest, c1, c2 =>
      if b then
        ((stepCfg c1).1.map fun s => (true, s)).toList ++ interleave rest (stepCfg c1).2 c2
      else
        ((stepCfg c2).1.map fun s => (false, s)).toList ++ interleave rest c1 (stepCfg c2).2

/-- Run a single task alone for `n` scheduler steps. -/
def soloSteps : Nat → TaskCfg → List String
  | 0, _ => []
  | n + 1, c => (stepCfg c).1.toList ++ soloSteps n (stepCfg c).2

/-- Initial task configuration for a program, with the context variable unset. -/
def taskCfgOf (p : Prog) : TaskCfg := ⟨compile p, ⟨none, [], false, 0⟩⟩

/-! ## Style engine (logging.py, `Color` / `Format`) -/

/-- `class Color(Enum)`. -/
inductive Color where
  | red
  | green
  | yellow
  | blue
  | magenta
  | cyan
deriving DecidableEq, Repr, Fintype

/-- The enum values assigned in the source. -/
def Color.value : Color → Nat
  | .red => 1
  | .green => 2
  | .yellow => 3
  | .blue => 4
  | .magenta => 5
  | .cyan => 6

/-- `@dataclass(frozen=True) class Format`. -/
structure Format where
  color : Option Color := none
  bold : Bool := false
  dim : Bool := false
  italic : Bool := false
  underlined : Bool := false
deriving DecidableEq, Repr, Fintype

/-- The `parts` list built by `Format.make_formatter`, in source order. -/
def Format.parts (f : Format) : List String :=
  (match f.color with
   | some c => ["3" ++ toString c.value]
   | none => [])
  ++ (if f.bold then ["1"] else [])
  ++ (if f.dim then ["2"] else [])
  ++ (if f.italic then ["3"] else [])
  ++ (if f.underlined then ["4"] else [])

/-- The `reset_parts` list built by `Format.make_formatter`, in source order. -/
def Format.resetParts (f : Format) : List String :=
  (match f.color with
   | some _ => ["39"]
   | none => [])
  ++ (if f.bold then ["22"] else [])
  ++ (if f.dim then ["22"] else [])
  ++ (if f.italic then ["23"] else [])
  ++ (if f.underlined then ["24"] else [])

/-- `Format.make_formatter`: identity (`str`) when no attribute is set, otherwise
wrap in the escape built from `parts` and the reset built from `reset_parts`. -/
def Format.makeFormatter (f : Format) : String → String :=
  if f.parts.isEmpty then fun s => s
  else fun s =>
    "\x1b[" ++ String.intercalate ";" f.parts ++ "m" ++ s ++
      "\x1b[" ++ String.intercalate ";" f.resetParts ++ "m"

/-- Spec-side numeric SGR code of a color (30 + enum value), used to state the
claims about the numeric mapping. -/
def colorCode (c : Color) : Nat := 30 + c.value

/-- Spec-side numeric opening codes of a descriptor. -/
def openCodes (f : Format) : List Nat :=
  (match f.color with
   | some c => [colorCode c]
   | none => [])
  ++ (if f.bold then [1] else [])
  ++ (if f.dim then [2] else [])
  ++ (if f.italic then [3] else [])
  ++ (if f.underlined then [4] else [])

/-- Spec-side numeric reset codes of a descriptor. -/
def resetCodes (f : Format) : List Nat :=
  (match f.color with
   | some _ => [39]
   | none => [])
  ++ (if f.bold then [22] else [])
  ++ (if f.dim then [22] else [])
  ++ (if f.italic then [23] else [])
  ++ (if f.underlined then [24] else [])

/-- Render a numeric code list as an SGR escape sequence. -/
def escSeq (codes : List Nat) : String :=
  "\x1b[" ++ String.intercalate ";" (codes.map toString) ++ "m"

/-! ## Log arguments and the formatting registry
(logging.py, `Formatted` / `_ActivatedFormatted` / `FORMATS` / `_format_arg`) -/

/-- Runtime type tags for the `isinstance` checks done by `_format_arg`.  The
repository registers exact runtime classes and passes instances of exactly those
classes, so `isinstance` is modelled as tag equality. -/
inductive PyType where
  | datetime
  | path
  | subprocessArgs
  | pystr
  | other (n : Nat)
deriving DecidableEq, Repr

/-- A Python value as far as logging is concerned: its runtime type and its
`str()` rendering. -/
structure PyValue where
  type : PyType
  str : String
deriving DecidableEq, Repr

/-- A positional log argument: either a bare value or a `Formatted` wrapper
(`Format.apply`), which pairs the value with its style but makes no rendering
decision yet (`Formatted.__str__` is the plain `str(value)`). -/
inductive Arg where
  | val (v : PyValue)
  | formatted (v : PyValue) (f : Format)
deriving DecidableEq, Repr

/-- `str(arg)` for an argument that has not been activated. -/
def Arg.str : Arg → String
  | .val v => v.str
  | .formatted v _ => v.str

/-- An argument after `_format_arg`: either passed through untouched or an
`_ActivatedFormatted` bound to a style (whose `__str__` applies the style's
formatter to `str(value)`). -/
inductive ActArg where
  | plain (a : Arg)
  | act (v : PyValue) (f : Format)
deriving DecidableEq, Repr

/-- `str()` of an activated argument. -/
def ActArg.str : ActArg → String
  | .plain a => a.str
  | .act v f => Format.makeFormatter f v.str

/-- The module-level registry `FORMATS`.  The first two entries are the literal
list in the source; the third is appended at import time by the
`@format_in_logs(dim=True)` decorator on `SubprocessArgs`. -/
def FORMATS : List (PyType × Format) :=
  [(.datetime, { color := some .yellow }),
   (.path, { color := some .cyan }),
   (.subprocessArgs, { dim := true })]

/-- `_format_arg`: an already-`Formatted` argument is activated with its own
style; otherwise the first registry entry whose type matches wins; otherwise the
argument passes through. -/
def format_arg (reg : List (PyType × Format)) : Arg → ActArg
  | .formatted v f => .act v f
  | .val v =>
      match reg.find? (fun e => e.1 == v.type) with
      | some e => .act v e.2
      | none => .plain (.val v)

/-- Strip the style from an argument (spec-side helper used to state that
disabling escapes renders arguments as their plain text form). -/
def stripStyle : Arg → Arg
  | .formatted v _ => .val v
  | .val v => .val v

/-! ## Python %-formatting (the `msg % args` expressions in `getMessage`) -/

/-- `msg % args` for a tuple of arguments, restricted to the `%s` and `%%`
specifiers (the only ones the repository uses); the argument strings are the
`str()` of each argument, which is what `%s` converts with.  `Except.error`
models the exception Python raises. -/
def pyFormatTuple : List Char → List String → Except String (List Char)
  | [], [] => .ok []
  | [], _ :: _ => .error "not all arguments converted during string formatting"
  | c0 :: tl, args =>
      if c0 = '%' then
        match tl with
        | [] => .error "incomplete format"
        | c1 :: rest =>
            if c1 = '%' then (pyFormatTuple rest args).map (fun o => '%' :: o)
            else if c1 = 's' then
              match args with
              | [] => .error "not enough arguments for format string"
              | a :: args2 => (pyFormatTuple rest args2).map (fun o => a.data ++ o)
            else .error "unsupported format character"
      else (pyFormatTuple tl args).map (fun o => c0 :: o)

/-- `msg % args` for a single mapping argument, restricted to `%(name)s` and
`%%` (a plain `%s` applied to a mapping is outside the behaviour the repository
exercises and is an error here).  Fueled to keep the recursion structural; fuel
at least the template length never runs out. -/
def pyFormatDictF : Nat → List Char → List (String × Arg) → Except String (List Char)
  | _, [], _ => .ok []
  | 0, _ :: _, _ => .error "out of fuel"
  | fuel + 1, c0 :: tl, m =>
      if c0 = '%' then
        match tl with
        | [] => .error "incomplete format"
        | c1 :: rest =>
            if c1 = '%' then (pyFormatDictF fuel rest m).map (fun o => '%' :: o)
            else if c1 = '(' then
              match rest.dropWhile (fun c => c ≠ ')') with
              | ')' :: 's' :: rest2 =>
                  match m.find? (fun e =>
                      e.1 == String.mk (rest.takeWhile (fun c => c ≠ ')'))) with
                  | some e =>
                      (pyFormatDictF fuel rest2 m).map (fun o => (Arg.str e.2).data ++ o)
                  | none =>
                      .error ("KeyError: "
                        ++ String.mk (rest.takeWhile (fun c => c ≠ ')')))
              | _ => .error "incomplete format key"
            else .error "unsupported format character"
      else (pyFormatDictF fuel tl m).map (fun o => c0 :: o)

/-- `msg % args` for a mapping argument. -/
def pyFormatDict (tmpl : List Char) (m : List (String × Arg)) : Except String (List Char) :=
  pyFormatDictF tmpl.length tmpl m

/-! ## The custom record factory (logging.py, `FormattingLogRecord.getMessage`) -/

/-- The `self.args` of a log record: a mapping, a tuple, or something of an
unexpected type (carrying its type name for the diagnostic message). -/
inductive Args where
  | dict (m : List (String × Arg))
  | tuple (as_ : List Arg)
  | other (typeName : String)
deriving DecidableEq, Repr

/-- `FormattingLogRecord.getMessage`, with the `_use_color` context variable
passed explicitly (the `Formatter` sets it around formatting).  Returns the
result of the `%` substitution (or the propagating exception) together with the
lines printed to `sys.stderr`. -/
def getMessage (reg : List (PyType × Format)) (msg : String) (args : Args)
    (useColor : Bool) : Except String String × List String :=
  match args with
  | .dict m => ((pyFormatDict msg.data m).map String.mk, [])
  | .tuple as_ =>
      if useColor then
        ((pyFormatTuple msg.data ((as_.map (format_arg reg)).map ActArg.str)).map String.mk, [])
      else
        ((pyFormatTuple msg.data (as_.map Arg.str)).map String.mk, [])
  | .other tn =>
      (.ok msg,
       ["FormattingLogRecord: Unexpected type for self.args (" ++ tn ++ ")"])

/-- Modelled from CPython's `logging.LogRecord.getMessage` (the standard-library
behaviour the custom record factory replaces), for the comparison in C10:
substitution is skipped when `self.args` is falsy (in particular the empty
tuple). -/
def stdlibGetMessage (msg : String) (args : List Arg) : Except String String :=
  if args.isEmpty then .ok msg
  else (pyFormatTuple msg.data (args.map Arg.str)).map String.mk

/-! ## The sink formatter (logging.py, `Formatter`) -/

/-- A log record as the Formatter sees it: the already-rendered timestamp, the
level name, the prefix injected by `PrefixFilter` (the value of
`_current_prefix`), and the message template with its arguments. -/
structure Record where
  asctime : String
  levelname : String
  pfx : String
  msg : String
  args : Args
deriving DecidableEq, Repr

/-- `%(levelname)10s`: right-align in a field of width 10. -/
def padLeft (n : Nat) (s : String) : String :=
  String.mk (List.replicate (n - s.data.length) ' ') ++ s

/-- The line produced by `logging.Formatter.format` for the format string
`"%(asctime)s %(levelname)10s: %(prefix)s%(message)s"` installed by
`configure_logging`, before newline replacement.  `useColor` is the value the
surrounding `Formatter.format` pushed into `_use_color`. -/
def renderLine (reg : List (PyType × Format)) (useColor : Bool) (r : Record) :
    Except String String × List String :=
  ((getMessage reg r.msg r.args useColor).1.map (fun message =>
      r.asctime ++ " " ++ padLeft 10 r.levelname ++ ": " ++ r.pfx ++ message),
   (getMessage reg r.msg r.args useColor).2)

/-- The newline replacement `s.replace("\n", "␤")`: both needle and replacement
are single characters, so `str.replace` is a character map. -/
def nlGlyph (c : Char) : Char := if c = '\n' then '␤' else c

/-- `Formatter.format`: set `_use_color` to `include_color_escapes`, render the
line, reset, and replace newlines when configured. -/
def formatRecord (reg : List (PyType × Format)) (includeColorEscapes : Bool)
    (replaceNewlines : Bool) (r : Record) : Except String String × List String :=
  ((if replaceNewlines then
      (renderLine reg includeColorEscapes r).1.map (fun o => String.mk (o.data.map nlGlyph))
    else (renderLine reg includeColorEscapes r).1),
   (renderLine reg includeColorEscapes r).2)

/-- The escape character that opens every ANSI escape sequence. -/
def escChar : Char := '\x1b'

/-- All argument strings a record can contribute to its rendered line are free
of the escape character. -/
def argsEscFree : Args → Prop
  | .tuple as_ => ∀ a ∈ as_, ∀ c ∈ (Arg.str a).data, c ≠ escChar
  | .dict m => ∀ e ∈ m, ∀ c ∈ (Arg.str e.2).data, c ≠ escChar
  | .other _ => True

/-! ## The subprocess wrapper (subprocess.py, `run` / `_read_and_log_stream`) -/

/-- The observable behaviour of the spawned child process: its final exit code
and the raw bytes each of its two output streams produces. -/
structure ChildProc where
  returncode : Int
  stdoutBytes : List Nat
  stderrBytes : List Nat
deriving DecidableEq, Repr

/-- `@dataclass class Result`. -/
structure Result where
  returncode : Int
  stdout : List Nat
  stderr : List Nat
deriving DecidableEq, Repr

/-- The successive `stream.readline()` results: each line includes its trailing
newline byte; a final partial line without a newline is returned as-is; at end
of stream `readline` returns empty bytes and the pump's loop ends. -/
def splitLinesBytes : List Nat → List (List Nat)
  | [] => []
  | b :: rest =>
      if b = 10 then [10] :: splitLinesBytes rest
      else
        match splitLinesBytes rest with
        | [] => [[b]]
        | l :: ls => (b :: l) :: ls

/-- `bytes.decode(errors="replace")`, modelled for the ASCII range. -/
def decodeByte (b : Nat) : Char :=
  if b < 128 then Char.ofNat b else '�'

/-- Decode raw line bytes to the string that gets logged. -/
def decodeReplace (bs : List Nat) : String := String.mk (bs.map decodeByte)

/-- `str.removesuffix("\n")`. -/
def removesuffixNL (s : String) : String :=
  if s.data.getLast? = some '\n' then String.mk s.data.dropLast else s

/-- A call into the logging pipeline (template plus positional arguments). -/
structure LogCall where
  template : String
  args : List Arg
deriving DecidableEq, Repr

/-- `Format(dim=True)`. -/
def dimFormat : Format := { dim := true }

/-- The log call `_read_and_log_stream` makes for one line: the dim-styled
`:label:` tag and the dim-styled decoded line with its trailing newline
stripped. -/
def streamLineLog (label : String) (line : List Nat) : LogCall :=
  ⟨"  %s%s",
   [.formatted ⟨.pystr, ":" ++ label ++ ": "⟩ dimFormat,
    .formatted ⟨.pystr, removesuffixNL (decodeReplace line)⟩ dimFormat]⟩

/-- Merge the two pumps' log calls under an explicit cooperative interleaving
schedule (`true` = the stdout pump logs its next line).  The interleaving
affects only the order of log records: each pump touches only its own stream
and its own buffer. -/
def mergeSched : List Bool → List LogCall → List LogCall → List LogCall
  | _, [], ys => ys
  | _, x :: xs, [] => x :: xs
  | [], xs, ys => xs ++ ys
  | b :: rest, x :: xs, y :: ys =>
      if b then x :: mergeSched rest xs (y :: ys)
      else y :: mergeSched rest (x :: xs) ys

/-- The advisory record `run` logs when the exit code is non-zero. -/
def exitLog (rc : Int) : LogCall :=
  ⟨"  %s", [.formatted ⟨.pystr, ":exited: " ++ toString rc⟩ dimFormat]⟩

/-- `run(args, cwd=..., env=...)`: drain both streams line by line (each line is
logged and its raw bytes appended to that stream's buffer), wait for the
process, log the advisory exit record when the code is non-zero, and return the
code with the two buffers.  `sched` is the cooperative interleaving of the two
pumps. -/
def run (child : ChildProc) (sched : List Bool) : Result × List LogCall :=
  let outLines := splitLinesBytes child.stdoutBytes
  let errLines := splitLinesBytes child.stderrBytes
  let logs := mergeSched sched (outLines.map (streamLineLog "stdout"))
    (errLines.map (streamLineLog "stderr"))
  (⟨child.returncode, outLines.flatten, errLines.flatten⟩,
   logs ++ (if child.returncode ≠ 0 then [exitLog child.returncode] else []))

/-- Modelled from the spec: the external command `printf "%s\n" hello` writes
the bytes of `"hello\n"` to stdout, writes nothing to stderr, and exits with
status 0 (the binary itself is outside the repository). -/
def printfHelloChild : ChildProc := ⟨0, [104, 101, 108, 108, 111, 10], []⟩

/-! ## Concrete instances used by claim theorems and witnesses -/

/-- A task that opens `log_prefix("A")` around one observation. -/
def cfgA : TaskCfg := taskCfgOf (.scope "A" .obs)

/-- A sibling task that opens `log_prefix("B")` around one observation. -/
def cfgB : TaskCfg := taskCfgOf (.scope "B" .obs)

/-- A concrete record whose argument carries an explicit red+bold style, used to
witness that the plain sink renders it without any escape sequence. -/
def c2Rec : Record :=
  ⟨"2024-01-01 12:00:00", "INFO", "main: ", "value %s",
   .tuple [.formatted ⟨.pystr, "42"⟩ { color := some .red, bold := true }]⟩

/-- A concrete record whose message embeds a newline, used to witness newline
replacement. -/
def c8Rec : Record := ⟨"2024-01-01 12:00:00", "INFO", "", "a\nb", .tuple []⟩

/-- A concrete child process that writes one line to each stream and exits with
status 3, used to witness the advisory exit record. -/
def c7Child : ChildProc := ⟨3, [111, 10], [101, 10]⟩

/-! ## Lemmas about the prefix machine -/

theorem runInstrs_append (l1 l2 : List Instr) (st : MachState) :
    runInstrs (l1 ++ l2) st =
      ((runInstrs l1 st).1 ++ (runInstrs l2 (runInstrs l1 st).2).1,
       (runInstrs l2 (runInstrs l1 st).2).2) := by
  induction l1 generalizing st with
  | nil => simp [runInstrs]
  | cons i rest ih =>
      simp only [List.cons_append, runInstrs]
      rw [show rest.append l2 = rest ++ l2 from rfl, ih]
      simp [List.append_assoc]

/-- While an exception propagates, running any compiled program changes nothing:
entered scopes are only skipped (`skip` counting), and no observation is made. -/
theorem runInstrs_compile_raised (p : Prog) (ctx : Option String)
    (sv : List (Option String)) (k : Nat) :
    runInstrs (compile p) ⟨ctx, sv, true, k⟩ = ([], ⟨ctx, sv, true, k⟩) := by
  induction p generalizing k with
  | skip => simp [compile, runInstrs]
  | obs => simp [compile, runInstrs, execInstr]
  | fail => simp [compile, runInstrs, execInstr]
  | seq p q ihp ihq =>
      simp [compile, runInstrs_append, ihp, ihq]
  | scope t body ih =>
      simp [compile, runInstrs, execInstr, runInstrs_append, ih (k + 1)]

/-- The machine run of a compiled program from a clean state realizes the
big-step semantics: it makes exactly the big-step observations, restores the
context variable and the token stack exactly, and propagates the exception
flag. -/
theorem runInstrs_compile (p : Prog) (ctx : Option String) (sv : List (Option String)) :
    runInstrs (compile p) ⟨ctx, sv, false, 0⟩ =
      ((execProg p ctx).1, ⟨ctx, sv, (execProg p ctx).2, 0⟩) := by
  induction p generalizing ctx sv with
  | skip => simp [compile, runInstrs, execProg]
  | obs => simp [compile, runInstrs, execInstr, execProg]
  | fail => simp [compile, runInstrs, execInstr, execProg]
  | seq p q ihp ihq =>
      simp only [compile, runInstrs_append, ihp, execProg]
      by_cases h : (execProg p ctx).2
      · simp [h, runInstrs_compile_raised]
      · simp [h, ihq]
  | scope t body ih =>
      simp only [compile, runInstrs, execInstr, execProg]
      simp only [Bool.false_eq_true, if_false, Option.toList_none, List.nil_append]
      rw [runInstrs_append, ih]
      simp [runInstrs, execInstr]

/-! ## C1 -/

/-- C1: entering `log_prefix(t)` from enclosing prefix state `p` makes the
active prefix `p ++ t` for the whole scope — the observations of the body are
exactly those of the body run with active prefix `p ++ t`, and nested scopes
compose by concatenation — and exiting the scope, whether normally or with a
propagating exception, restores the context variable to exactly its previous
value (and the exception, if any, propagates). -/
theorem c1_log_prefix_scoping (t : String) (body : Prog) (ctx : Option String) :
    (runInstrs (compile (.scope t body)) ⟨ctx, [], false, 0⟩).2.ctx = ctx
    ∧ (runInstrs (compile (.scope t body)) ⟨ctx, [], false, 0⟩).2.raised
        = (execProg body (some (ctx.getD "" ++ t))).2
    ∧ (runInstrs (compile (.scope t body)) ⟨ctx, [], false, 0⟩).1
        = (execProg body (some (ctx.getD "" ++ t))).1
    ∧ (∀ t2 : String,
        (runInstrs (compile (.scope t (.scope t2 .obs))) ⟨ctx, [], false, 0⟩).1
          = [ctx.getD "" ++ t ++ t2]) := by
  refine ⟨?_, ?_, ?_, ?_⟩
  · rw [runInstrs_compile]
  · rw [runInstrs_compile]; simp [execProg]
  · rw [runInstrs_compile]; simp [execProg]
  · intro t2
    rw [runInstrs_compile]
    simp [execProg]

/-! ## Lemmas about interleaved tasks -/

theorem str_empty_append (t : String) : "" ++ t = t := rfl

/-- Each task's own observations under any interleaving are exactly the
observations of running that task alone for its share of the schedule: a task
never reads the sibling task's context state. -/
theorem interleave_proj (sched : List Bool) (c1 c2 : TaskCfg) :
    (interleave sched c1 c2).filterMap (fun x => if x.1 then some x.2 else none)
        = soloSteps (sched.count true) c1
    ∧ (interleave sched c1 c2).filterMap (fun x => if x.1 then none else some x.2)
        = soloSteps (sched.count false) c2 := by
  induction sched generalizing c1 c2 with
  | nil => simp [interleave, soloSteps]
  | cons b rest ih =>
      have h := ih
      cases b
      · cases ho : (stepCfg c2).1 with
        | none =>
            simp [interleave, soloSteps, ho, List.count_cons,
              (h c1 (stepCfg c2).2).1, (h c1 (stepCfg c2).2).2]
        | some s =>
            simp [interleave, soloSteps, ho, List.count_cons,
              (h c1 (stepCfg c2).2).1, (h c1 (stepCfg c2).2).2]
      · cases ho : (stepCfg c1).1 with
        | none =>
            simp [interleave, soloSteps, ho, List.count_cons,
              (h (stepCfg c1).2 c2).1, (h (stepCfg c1).2 c2).2]
        | some s =>
            simp [interleave, soloSteps, ho, List.count_cons,
              (h (stepCfg c1).2 c2).1, (h (stepCfg c1).2 c2).2]

theorem soloSteps_done (n : Nat) (st : MachState) : soloSteps n ⟨[], st⟩ = [] := by
  induction n with
  | zero => rfl
  | succ n ih => simpa [soloSteps, stepCfg] using ih

/-- A task that opens one scope around one observation observes nothing or
exactly its own prefix text, whatever its share of the schedule. -/
theorem soloSteps_scope_obs (t : String) (n : Nat) :
    soloSteps n (taskCfgOf (.scope t .obs)) = []
    ∨ soloSteps n (taskCfgOf (.scope t .obs)) = [t] := by
  match n with
  | 0 => exact Or.inl rfl
  | 1 =>
      left
      simp [taskCfgOf, compile, soloSteps, stepCfg, execInstr]
  | 2 =>
      right
      simp [taskCfgOf, compile, soloSteps, stepCfg, execInstr, str_empty_append]
  | m + 3 =>
      right
      simp [taskCfgOf, compile, soloSteps, stepCfg, execInstr, str_empty_append,
        soloSteps_done]

/-! ## C9 -/

/-- C9: for any two concurrently scheduled tasks, under every cooperative
interleaving each task's observations are exactly those of its own solo run —
its context-local state is never affected by (and never leaks to) the sibling —
and in particular, for two sibling regions opened with the different texts "A"
and "B", the first task only ever observes "A" and the second only ever
observes "B", at every interleaving point. -/
theorem c9_concurrent_prefix_isolation :
    (∀ (sched : List Bool) (c1 c2 : TaskCfg),
      (interleave sched c1 c2).filterMap (fun x => if x.1 then some x.2 else none)
          = soloSteps (sched.count true) c1
      ∧ (interleave sched c1 c2).filterMap (fun x => if x.1 then none else some x.2)
          = soloSteps (sched.count false) c2)
    ∧ (∀ (sched : List Bool) (x : Bool × String), x ∈ interleave sched cfgA cfgB →
        (x.1 = true → x.2 = "A") ∧ (x.1 = false → x.2 = "B")) := by
  refine ⟨fun sched c1 c2 => interleave_proj sched c1 c2, ?_⟩
  rintro sched ⟨bx, sx⟩ hmem
  constructor
  · rintro rfl
    have hs : sx ∈ (interleave sched cfgA cfgB).filterMap
        (fun x => if x.1 then some x.2 else none) :=
      List.mem_filterMap.mpr ⟨(true, sx), hmem, rfl⟩
    rw [(interleave_proj sched cfgA cfgB).1] at hs
    rcases soloSteps_scope_obs "A" (sched.count true) with h | h <;>
      rw [show cfgA = taskCfgOf (.scope "A" .obs) from rfl, h] at hs
    · cases hs
    · simpa using hs
  · rintro rfl
    have hs : sx ∈ (interleave sched cfgA cfgB).filterMap
        (fun x => if x.1 then none else some x.2) :=
      List.mem_filterMap.mpr ⟨(false, sx), hmem, rfl⟩
    rw [(interleave_proj sched cfgA cfgB).2] at hs
    rcases soloSteps_scope_obs "B" (sched.count false) with h | h <;>
      rw [show cfgB = taskCfgOf (.scope "B" .obs) from rfl, h] at hs
    · cases hs
    · simpa using hs

/-- Witness for C9 at a concrete schedule: the first scheduled task really does
observe its own prefix under interleaving. -/
theorem c9_witness : ((true, "A") : Bool × String).2 = "A" :=
  (c9_concurrent_prefix_isolation.2 [true, true, true] (true, "A") (by decide)).1 rfl

/-! ## Lemmas about the style engine -/

/-- The string code parts built by `make_formatter` are exactly the decimal
renderings of the numeric open codes. -/
theorem parts_eq : ∀ f : Format, Format.parts f = (openCodes f).map toString := by
  decide

/-- The string reset parts built by `make_formatter` are exactly the decimal
renderings of the numeric reset codes. -/
theorem resetParts_eq : ∀ f : Format, Format.resetParts f = (resetCodes f).map toString := by
  decide

/-! ## C5 -/

/-- C5 counterexample: bold and dim are two different attributes (their opening
codes differ) whose closing escapes use the same reset code "22", so the claim
that no two attributes share a reset code is false. -/
theorem c5_counterexample :
    Format.resetParts { bold := true } = ["22"]
    ∧ Format.resetParts { dim := true } = ["22"]
    ∧ (Format.parts { bold := true } == Format.parts { dim := true }) = false
    ∧ Format.makeFormatter { bold := true } "x" = "\x1b[1m" ++ "x" ++ "\x1b[22m"
    ∧ Format.makeFormatter { dim := true } "x" = "\x1b[2m" ++ "x" ++ "\x1b[22m" := by
  refine ⟨by decide, by decide, by decide, by decide, by decide⟩

/-- C5 (amended): a descriptor with no attribute set renders as the identity;
otherwise the render function wraps the text in an opening escape built from
the set attributes and a closing escape built from their reset codes, with a
distinct numeric code per color name (30 + enum value, reset 39) and precise
per-attribute reset codes 23 for italic and 24 for underline — but bold and dim
share the single intensity-reset code 22 rather than each having their own. -/
theorem c5_style_codes_amended (f : Format) (s : String) :
    (openCodes f = [] → Format.makeFormatter f s = s)
    ∧ (openCodes f ≠ [] →
        Format.makeFormatter f s = escSeq (openCodes f) ++ s ++ escSeq (resetCodes f))
    ∧ (∀ c1 c2 : Color, colorCode c1 = colorCode c2 → c1 = c2)
    ∧ (∀ c : Color, resetCodes { color := some c } = [39])
    ∧ resetCodes { italic := true } = [23]
    ∧ resetCodes { underlined := true } = [24]
    ∧ resetCodes { bold := true } = resetCodes { dim := true } := by
  refine ⟨?_, ?_, ?_, by decide, by decide, by decide, by decide⟩
  · intro h
    simp [Format.makeFormatter, parts_eq, h]
  · intro h
    have hne : (Format.parts f).isEmpty = false := by
      rcases ho : openCodes f with _ | ⟨a, l⟩
      · exact absurd ho h
      · rw [parts_eq, ho]; rfl
    simp [Format.makeFormatter, hne, escSeq, parts_eq, resetParts_eq,
      String.append_assoc, h]
  · intro c1 c2 hc
    revert hc
    cases c1 <;> cases c2 <;> decide

/-- Witness for C5 (amended) at a concrete styled descriptor. -/
theorem c5_witness :
    Format.makeFormatter { color := some Color.red, bold := true } "hi"
      = escSeq (openCodes { color := some Color.red, bold := true })
        ++ "hi" ++ escSeq (resetCodes { color := some Color.red, bold := true }) :=
  (c5_style_codes_amended { color := some Color.red, bold := true } "hi").2.1 (by decide)

/-! ## Lemmas about registry resolution -/

theorem find?_no_match (v : PyValue) (reg : List (PyType × Format))
    (h : ∀ e ∈ reg, e.1 ≠ v.type) :
    List.find? (fun e => e.1 == v.type) reg = none := by
  induction reg with
  | nil => rfl
  | cons e rest ih =>
      have he : (e.1 == v.type) = false := by
        simpa using h e (List.mem_cons_self e rest)
      rw [List.find?_cons_of_neg _ (by simp [he])]
      exact ih (fun e2 hm => h e2 (List.mem_cons_of_mem _ hm))

theorem find?_first_match (v : PyValue) (f : Format)
    (reg1 reg2 : List (PyType × Format)) (h : ∀ e ∈ reg1, e.1 ≠ v.type) :
    List.find? (fun e => e.1 == v.type) (reg1 ++ (v.type, f) :: reg2)
      = some (v.type, f) := by
  induction reg1 with
  | nil => simp [List.find?_cons_of_pos]
  | cons e rest ih =>
      have he : (e.1 == v.type) = false := by
        simpa using h e (List.mem_cons_self e rest)
      rw [List.cons_append, List.find?_cons_of_neg _ (by simp [he])]
      exact ih (fun e2 hm => h e2 (List.mem_cons_of_mem _ hm))

/-! ## C6 -/

/-- C6: with styling enabled, an argument that is already `Formatted` is
activated with its own explicit style, never consulting the registry; a bare
value gets the style of the first registry entry its runtime type matches, in
registration order; with no matching entry it passes through unstyled; and
`getMessage` with color enabled substitutes exactly the `_format_arg` images of
the arguments. -/
theorem c6_registry_resolution :
    (∀ (reg : List (PyType × Format)) (v : PyValue) (f : Format),
        format_arg reg (.formatted v f) = .act v f)
    ∧ (∀ (reg1 reg2 : List (PyType × Format)) (v : PyValue) (f : Format),
        (∀ e ∈ reg1, e.1 ≠ v.type) →
        format_arg (reg1 ++ (v.type, f) :: reg2) (.val v) = .act v f)
    ∧ (∀ (reg : List (PyType × Format)) (v : PyValue),
        (∀ e ∈ reg, e.1 ≠ v.type) →
        format_arg reg (.val v) = .plain (.val v))
    ∧ (∀ (reg : List (PyType × Format)) (msg : String) (as_ : List Arg),
        getMessage reg msg (.tuple as_) true
          = ((pyFormatTuple msg.data
                ((as_.map (format_arg reg)).map ActArg.str)).map String.mk, [])) := by
  refine ⟨fun reg v f => rfl, ?_, ?_, fun reg msg as_ => rfl⟩
  · intro reg1 reg2 v f h
    simp [format_arg, find?_first_match v f reg1 reg2 h]
  · intro reg v h
    simp [format_arg, find?_no_match v reg h]

/-- Witness for C6: a `Path`-typed value skips a non-matching earlier entry and
picks up the first matching registry style. -/
theorem c6_witness :
    format_arg ([(PyType.datetime, { color := some Color.yellow })]
        ++ (PyType.path, { color := some Color.cyan }) :: [])
      (.val ⟨PyType.path, "/usr/local"⟩)
      = .act ⟨PyType.path, "/usr/local"⟩ { color := some Color.cyan } :=
  c6_registry_resolution.2.1 [(PyType.datetime, { color := some Color.yellow })] []
    ⟨PyType.path, "/usr/local"⟩ { color := some Color.cyan } (by decide)

/-! ## Lemmas about %-formatting -/

theorem except_map_eq_ok {α β : Type} (f : α → β) (e : Except String α) (b : β)
    (h : e.map f = .ok b) : ∃ a, e = .ok a ∧ b = f a := by
  cases e with
  | error err => simp [Except.map] at h
  | ok a =>
      refine ⟨a, rfl, ?_⟩
      simpa [Except.map] using h.symm

/-- Every character of a successful tuple substitution comes from the template
or from one of the argument strings; in particular no escape character appears
if none was in the inputs. -/
theorem pyFormatTuple_escFree :
    ∀ (tmpl : List Char) (args : List String),
      (∀ c ∈ tmpl, c ≠ escChar) →
      (∀ s ∈ args, ∀ c ∈ s.data, c ≠ escChar) →
      ∀ out, pyFormatTuple tmpl args = .ok out → ∀ c ∈ out, c ≠ escChar := by
  intro tmpl args
  induction tmpl, args using pyFormatTuple.induct with
  | case1 =>
      intro _ _ out hok c hc
      simp [pyFormatTuple] at hok
      subst hok
      cases hc
  | case2 head tail =>
      intro _ _ out hok
      simp [pyFormatTuple] at hok
  | case3 args =>
      intro _ _ out hok
      simp [pyFormatTuple] at hok
  | case4 args rest ih =>
      intro htm hargs out hok c hc
      simp only [pyFormatTuple, if_pos rfl] at hok
      obtain ⟨o, he, rfl⟩ := except_map_eq_ok _ _ _ hok
      rcases List.mem_cons.mp hc with rfl | hc2
      · decide
      · exact ih (fun c2 hcr => htm c2 (by simp [hcr])) hargs o he c hc2
  | case5 rest h =>
      intro _ _ out hok
      simp [pyFormatTuple] at hok
  | case6 rest a args2 h ih =>
      intro htm hargs out hok c hc
      simp only [pyFormatTuple, if_pos rfl, if_neg h] at hok
      obtain ⟨o, he, rfl⟩ := except_map_eq_ok _ _ _ hok
      rcases List.mem_append.mp hc with hc1 | hc2
      · exact hargs a (List.mem_cons_self a args2) c hc1
      · exact ih (fun c2 hcr => htm c2 (by simp [hcr]))
          (fun s hs => hargs s (List.mem_cons_of_mem _ hs)) o he c hc2
  | case7 args c1 rest h1 h2 =>
      intro _ _ out hok
      simp [pyFormatTuple, h1, h2] at hok
  | case8 c0 tl args hne ih =>
      intro htm hargs out hok c hc
      rw [pyFormatTuple.eq_def] at hok
      simp only [if_neg hne] at hok
      obtain ⟨o, he, rfl⟩ := except_map_eq_ok _ _ _ hok
      rcases List.mem_cons.mp hc with rfl | hc2
      · exact htm c (List.mem_cons_self c tl)
      · exact ih (fun c2 hcr => htm c2 (List.mem_cons_of_mem _ hcr)) hargs o he c hc2

/-- Mapping substitution never introduces the escape character either: every
output character comes from the template or from a looked-up entry's string. -/
theorem pyFormatDictF_escFree :
    ∀ (fuel : Nat) (tmpl : List Char) (m : List (String × Arg)),
      (∀ c ∈ tmpl, c ≠ escChar) →
      (∀ e ∈ m, ∀ c ∈ (Arg.str e.2).data, c ≠ escChar) →
      ∀ out, pyFormatDictF fuel tmpl m = .ok out → ∀ c ∈ out, c ≠ escChar := by
  intro fuel tmpl m
  induction fuel, tmpl, m using pyFormatDictF.induct with
  | case1 t x =>
      intro _ _ out hok c hc
      simp [pyFormatDictF] at hok
      subst hok
      cases hc
  | case2 head tail x =>
      intro _ _ out hok
      simp [pyFormatDictF] at hok
  | case3 fuel m =>
      intro _ _ out hok
      simp [pyFormatDictF] at hok
  | case4 fuel m rest ih =>
      intro htm hm out hok c hc
      simp only [pyFormatDictF, if_pos rfl] at hok
      obtain ⟨o, he, rfl⟩ := except_map_eq_ok _ _ _ hok
      rcases List.mem_cons.mp hc with rfl | hc2
      · decide
      · exact ih (fun c2 hcr => htm c2 (by simp [hcr])) hm o he c hc2
  | case5 fuel m rest rest2 hdw e hfind hne ih =>
      intro htm hm out hok c hc
      rw [pyFormatDictF.eq_def] at hok
      simp only [if_neg hne, if_true, hdw, hfind] at hok
      obtain ⟨o, he, rfl⟩ := except_map_eq_ok _ _ _ hok
      rcases List.mem_append.mp hc with hc1 | hc2
      · exact hm e (List.mem_of_find?_eq_some hfind) c hc1
      · refine ih ?_ hm o he c hc2
        intro c2 hcr
        have hr : c2 ∈ rest := by
          refine (List.dropWhile_suffix (fun c => decide (c ≠ ')'))).subset ?_
          rw [hdw]
          exact List.mem_cons_of_mem _ (List.mem_cons_of_mem _ hcr)
        exact htm c2 (List.mem_cons_of_mem _ (List.mem_cons_of_mem _ hr))
  | case6 fuel m rest rest2 hdw hfind hne =>
      intro _ _ out hok
      rw [pyFormatDictF.eq_def] at hok
      simp only [if_neg hne, if_true, hdw, hfind] at hok
      exact Except.noConfusion hok
  | case7 fuel m rest hnodw hne =>
      intro _ _ out hok
      rw [pyFormatDictF.eq_def] at hok
      rcases hdw : List.dropWhile (fun c => decide (c ≠ ')')) rest with _ | ⟨d0, dtl⟩
      · simp only [if_neg hne, if_true, hdw] at hok
        exact Except.noConfusion hok
      · rcases dtl with _ | ⟨d1, dtl2⟩
        · simp only [if_neg hne, if_true, hdw] at hok
          exact Except.noConfusion hok
        · by_cases hd : d0 = ')' ∧ d1 = 's'
          · exact absurd (by rw [hdw, hd.1, hd.2]) (hnodw dtl2)
          · simp only [if_neg hne, if_true, hdw] at hok
            revert hok
            split <;> simp_all
  | case8 fuel m c1 rest h1 h2 =>
      intro _ _ out hok
      simp [pyFormatDictF, h1, h2] at hok
  | case9 fuel c0 tl m hne ih =>
      intro htm hm out hok c hc
      rw [pyFormatDictF.eq_def] at hok
      simp only [if_neg hne] at hok
      obtain ⟨o, he, rfl⟩ := except_map_eq_ok _ _ _ hok
      rcases List.mem_cons.mp hc with rfl | hc2
      · exact htm c (List.mem_cons_self c tl)
      · exact ih (fun c2 hcr => htm c2 (List.mem_cons_of_mem _ hcr)) hm o he c hc2

theorem data_mk (l : List Char) : (String.mk l).data = l := rfl

/-- A successful `getMessage` with escapes disabled never yields the escape
character, provided the template and the arguments' plain strings are free of
it. -/
theorem getMessage_escFree (reg : List (PyType × Format)) (msg : String) (args : Args)
    (hm : ∀ c ∈ msg.data, c ≠ escChar) (ha : argsEscFree args) (out : String)
    (hok : (getMessage reg msg args false).1 = .ok out) :
    ∀ c ∈ out.data, c ≠ escChar := by
  cases args with
  | dict m =>
      simp only [argsEscFree] at ha
      simp only [getMessage] at hok
      obtain ⟨o, he, rfl⟩ := except_map_eq_ok _ _ _ hok
      exact pyFormatDictF_escFree _ _ _ hm ha o he
  | tuple as_ =>
      simp only [argsEscFree] at ha
      simp only [getMessage, Bool.false_eq_true, if_false] at hok
      obtain ⟨o, he, rfl⟩ := except_map_eq_ok _ _ _ hok
      refine pyFormatTuple_escFree _ _ hm ?_ o he
      intro s hs
      obtain ⟨a, ha2, rfl⟩ := List.mem_map.mp hs
      exact ha a ha2
  | other tn =>
      simp only [getMessage, Except.ok.injEq] at hok
      subst hok
      exact hm

/-- The fully rendered line of the plain sink is free of the escape character
when the record's fields are. -/
theorem renderLine_escFree (reg : List (PyType × Format)) (r : Record)
    (h1 : ∀ c ∈ r.asctime.data, c ≠ escChar)
    (h2 : ∀ c ∈ r.levelname.data, c ≠ escChar)
    (h3 : ∀ c ∈ r.pfx.data, c ≠ escChar)
    (h4 : ∀ c ∈ r.msg.data, c ≠ escChar)
    (ha : argsEscFree r.args) (out : String)
    (hok : (renderLine reg false r).1 = .ok out) :
    ∀ c ∈ out.data, c ≠ escChar := by
  simp only [renderLine] at hok
  obtain ⟨o, he, rfl⟩ := except_map_eq_ok _ _ _ hok
  have hmsg := getMessage_escFree reg r.msg r.args h4 ha o he
  intro c hc
  simp only [String.data_append, List.mem_append] at hc
  rcases hc with ((((hca | hcb) | hcp) | hcd) | hce) | hcf
  · exact h1 c hca
  · have : c = ' ' := by simpa using hcb
    subst this; decide
  · simp only [padLeft, String.data_append, data_mk, List.mem_append] at hcp
    rcases hcp with hcr | hcl
    · have : c = ' ' := List.eq_of_mem_replicate hcr
      subst this; decide
    · exact h2 c hcl
  · have : c = ':' ∨ c = ' ' := by simpa using hcd
    rcases this with rfl | rfl <;> decide
  · exact h3 c hce
  · exact hmsg c hcf

/-! ## C2 -/

/-- C2: with escapes disabled, rendering does not run any style-activation
logic — the result is the same for every registry and with every style stripped
from the arguments — and the rendered output of such a sink contains no ANSI
escape character, whatever styles were attached, provided the record's own
texts do not contain one. -/
theorem c2_plain_sink_no_escapes :
    (∀ (reg reg2 : List (PyType × Format)) (msg : String) (as_ : List Arg),
        getMessage reg msg (.tuple as_) false
          = getMessage reg2 msg (.tuple (as_.map stripStyle)) false)
    ∧ (∀ (reg : List (PyType × Format)) (rn : Bool) (r : Record) (out : String),
        (∀ c ∈ r.asctime.data, c ≠ escChar) →
        (∀ c ∈ r.levelname.data, c ≠ escChar) →
        (∀ c ∈ r.pfx.data, c ≠ escChar) →
        (∀ c ∈ r.msg.data, c ≠ escChar) →
        argsEscFree r.args →
        (formatRecord reg false rn r).1 = .ok out →
        ∀ c ∈ out.data, c ≠ escChar) := by
  constructor
  · intro reg reg2 msg as_
    simp only [getMessage, Bool.false_eq_true, if_false]
    have hmap : (as_.map stripStyle).map Arg.str = as_.map Arg.str := by
      rw [List.map_map]
      refine List.map_congr_left ?_
      intro a _
      cases a <;> rfl
    rw [hmap]
  · intro reg rn r out h1 h2 h3 h4 ha hok
    cases rn with
    | false =>
        exact renderLine_escFree reg r h1 h2 h3 h4 ha out
          (by simpa [formatRecord] using hok)
    | true =>
        simp only [formatRecord, if_true] at hok
        obtain ⟨o, he, rfl⟩ := except_map_eq_ok _ _ _ hok
        intro c hc
        simp only [data_mk] at hc
        obtain ⟨c0, hc0, rfl⟩ := List.mem_map.mp hc
        have h0 := renderLine_escFree reg r h1 h2 h3 h4 ha o he c0 hc0
        by_cases hcn : c0 = '\n'
        · subst hcn; decide
        · simp only [nlGlyph, if_neg hcn]
          exact h0

/-- Witness for C2: a record with a red+bold styled argument renders on the
escape-disabled sink to a line with no escape character. -/
theorem c2_witness :
    (((formatRecord FORMATS false true c2Rec).1.toOption.getD "").data.all
      (fun c => decide (c ≠ escChar))) = true := by
  rw [List.all_eq_true]
  intro c hc
  exact decide_eq_true (c2_plain_sink_no_escapes.2 FORMATS true c2Rec
    ((formatRecord FORMATS false true c2Rec).1.toOption.getD "")
    (by decide) (by decide) (by decide) (by decide)
    (by simp only [c2Rec, argsEscFree]; decide) (by rfl) c hc)

/-! ## C3 -/

/-- C3 counterexample: a log call whose single argument does not match the two
positional placeholders of its template makes `%` substitution raise inside
`getMessage` (an `Except.error`), and nothing is reported to stderr — refuting
the claim that such malformed calls never make message formatting raise. -/
theorem c3_counterexample :
    (getMessage [] "%s %s" (.tuple [.val ⟨.pystr, "a"⟩]) false).1
      = .error "not enough arguments for format string"
    ∧ (getMessage [] "%s %s" (.tuple [.val ⟨.pystr, "a"⟩]) false).2 = [] :=
  ⟨rfl, rfl⟩

/-- C3 (amended): only when the record's `args` object is of an unexpected type
(neither tuple nor mapping) does `getMessage` avoid raising — it prints one
diagnostic line to stderr and returns the template unformatted as best-effort
output; a tuple whose shape does not match the template's placeholders makes
the `%` substitution raise, with or without color. -/
theorem c3_amended_diagnostics (reg : List (PyType × Format)) (msg : String)
    (tn : String) (c : Bool) :
    (getMessage reg msg (.other tn) c).1 = .ok msg
    ∧ (getMessage reg msg (.other tn) c).2
        = ["FormattingLogRecord: Unexpected type for self.args (" ++ tn ++ ")"]
    ∧ (∀ a : Arg, (getMessage reg "%s %s" (.tuple [a]) c).1
        = .error "not enough arguments for format string") := by
  refine ⟨rfl, rfl, ?_⟩
  intro a
  cases c
  · rfl
  · rfl

/-! ## C10 -/

/-- C10: the custom record factory applies `%` substitution for every tuple of
arguments including the empty tuple — so a template with a bare `%` logged with
zero arguments is not returned verbatim: `%%` collapses to `%` and a trailing
bare `%` raises — unlike the standard library's `getMessage`, which skips
substitution entirely when no arguments are supplied and returns the template
verbatim. -/
theorem c10_empty_tuple_substitution :
    (∀ (reg : List (PyType × Format)) (msg : String) (c : Bool),
        (getMessage reg msg (.tuple []) c).1 = (pyFormatTuple msg.data []).map String.mk)
    ∧ (getMessage [] "50%%" (.tuple []) false).1 = .ok "50%"
    ∧ (getMessage [] "100%" (.tuple []) false).1 = .error "incomplete format"
    ∧ stdlibGetMessage "50%%" [] = .ok "50%%"
    ∧ stdlibGetMessage "100%" [] = .ok "100%" := by
  refine ⟨?_, rfl, rfl, rfl, rfl⟩
  intro reg msg c
  cases c
  · rfl
  · rfl

/-! ## C8 -/

/-- C8: with `replace_newlines` disabled the formatter returns the rendered
line unchanged; with it enabled every newline character of the fully rendered
line is replaced by the placeholder glyph, and the resulting line contains no
newline at all (one output line per record). -/
theorem c8_newline_replacement (reg : List (PyType × Format)) (esc : Bool)
    (r : Record) (s : String) :
    (formatRecord reg esc false r).1 = (renderLine reg esc r).1
    ∧ ((renderLine reg esc r).1 = .ok s →
        (formatRecord reg esc true r).1 = .ok (String.mk (s.data.map nlGlyph))
        ∧ '\n' ∉ (String.mk (s.data.map nlGlyph)).data) := by
  constructor
  · simp [formatRecord]
  · intro h
    constructor
    · simp [formatRecord, h, Except.map]
    · intro hmem
      simp only [data_mk] at hmem
      obtain ⟨c, hc, hcc⟩ := List.mem_map.mp hmem
      by_cases hcn : c = '\n'
      · subst hcn
        simp [nlGlyph] at hcc
      · simp only [nlGlyph, if_neg hcn] at hcc
        exact hcn hcc

/-- Witness for C8: the record whose message is "a\nb" renders with the
newline replaced and no newline in the output. -/
theorem c8_witness :
    (formatRecord FORMATS false true c8Rec).1
      = .ok (String.mk
          (((renderLine FORMATS false c8Rec).1.toOption.getD "").data.map nlGlyph)) :=
  ((c8_newline_replacement FORMATS false c8Rec
    ((renderLine FORMATS false c8Rec).1.toOption.getD "")).2 (by rfl)).1

/-! ## Lemmas about the subprocess wrapper -/

/-- Rejoining the `readline` results gives back exactly the raw stream bytes:
each line's raw bytes are appended unmodified, so the accumulated buffer is the
whole stream. -/
theorem flatten_splitLinesBytes (bs : List Nat) : (splitLinesBytes bs).flatten = bs := by
  induction bs with
  | nil => rfl
  | cons b rest ih =>
      by_cases hb : b = 10
      · subst hb
        simp [splitLinesBytes, ih]
      · simp only [splitLinesBytes, if_neg hb]
        rcases hs : splitLinesBytes rest with _ | ⟨l, ls⟩
        · rw [hs] at ih
          simp only [List.flatten_nil] at ih
          simp [← ih]
        · rw [hs] at ih
          simp only [List.flatten_cons] at ih
          simp only [List.flatten_cons, List.cons_append, ih]

/-- Everything in a schedule-merge of the two pumps' logs is one of the two
pumps' logs. -/
theorem mem_mergeSched (sched : List Bool) (xs ys : List LogCall) (l : LogCall)
    (h : l ∈ mergeSched sched xs ys) : l ∈ xs ∨ l ∈ ys := by
  induction sched generalizing xs ys with
  | nil =>
      cases xs with
      | nil => exact Or.inr h
      | cons x xs2 =>
          cases ys with
          | nil => exact Or.inl h
          | cons y ys2 => exact List.mem_append.mp (by simpa [mergeSched] using h)
  | cons b rest ih =>
      cases xs with
      | nil => exact Or.inr h
      | cons x xs2 =>
          cases ys with
          | nil => exact Or.inl h
          | cons y ys2 =>
              cases b
              · simp only [mergeSched, Bool.false_eq_true, if_false] at h
                rcases List.mem_cons.mp h with rfl | h2
                · exact Or.inr (List.mem_cons_self _ _)
                · rcases ih (x :: xs2) ys2 h2 with h3 | h3
                  · exact Or.inl h3
                  · exact Or.inr (List.mem_cons_of_mem _ h3)
              · simp only [mergeSched, if_true] at h
                rcases List.mem_cons.mp h with rfl | h2
                · exact Or.inl (List.mem_cons_self _ _)
                · rcases ih xs2 (y :: ys2) h2 with h3 | h3
                  · exact Or.inl (List.mem_cons_of_mem _ h3)
                  · exact Or.inr h3

/-! ## C4 -/

/-- C4: for every child process and every cooperative interleaving of the two
stream pumps, `run` returns the child's final exit code together with stdout
and stderr buffers that are exactly the raw bytes read from each stream (the
concatenation of each line's raw bytes, unmodified); in particular the modelled
`printf "%s\n" hello` run returns exit code 0, stdout exactly the bytes of
"hello\n" and an empty stderr buffer. -/
theorem c4_run_buffers :
    (∀ (child : ChildProc) (sched : List Bool),
        (run child sched).1.returncode = child.returncode
        ∧ (run child sched).1.stdout = child.stdoutBytes
        ∧ (run child sched).1.stderr = child.stderrBytes)
    ∧ (∀ sched : List Bool,
        (run printfHelloChild sched).1 = ⟨0, [104, 101, 108, 108, 111, 10], []⟩) := by
  constructor
  · intro child sched
    refine ⟨rfl, ?_, ?_⟩
    · simpa [run] using flatten_splitLinesBytes child.stdoutBytes
    · simpa [run] using flatten_splitLinesBytes child.stderrBytes
  · intro sched
    rfl

/-! ## C7 -/

/-- C7: `run` returns normally with the child's exit code whatever that code is
(a non-zero code is ordinary result data, not an error outcome), and exactly
when the code is non-zero a dim-styled advisory record noting the exit code is
the last record logged before `run` returns — with a zero code every record
logged is a stream-line record, so no exit advisory is emitted. -/
theorem c7_nonzero_exit_advisory (child : ChildProc) (sched : List Bool) :
    (run child sched).1.returncode = child.returncode
    ∧ (child.returncode ≠ 0 →
        (run child sched).2.getLast? = some (exitLog child.returncode)
        ∧ (exitLog child.returncode).args
            = [.formatted ⟨.pystr, ":exited: " ++ toString child.returncode⟩ dimFormat]
        ∧ dimFormat.dim = true)
    ∧ (child.returncode = 0 →
        ∀ l ∈ (run child sched).2, l.template = "  %s%s") := by
  refine ⟨rfl, ?_, ?_⟩
  · intro hrc
    refine ⟨?_, rfl, rfl⟩
    simp only [run, if_pos hrc]
    rw [List.getLast?_concat]
  · intro hrc l hl
    simp only [run, hrc] at hl
    simp only [ne_eq, not_true_eq_false, if_false, List.append_nil] at hl
    rcases mem_mergeSched _ _ _ l hl with h | h
    · obtain ⟨line, _, rfl⟩ := List.mem_map.mp h
      rfl
    · obtain ⟨line, _, rfl⟩ := List.mem_map.mp h
      rfl

/-- Witness for C7: the modelled child exiting with status 3 makes the dim
advisory exit record the last log record of `run`. -/
theorem c7_witness :
    (run c7Child []).2.getLast? = some (exitLog 3) :=
  ((c7_nonzero_exit_advisory c7Child []).2.1 (by decide)).1

end LoggingTalk
